import Mathlib

/-!
Verification development for a single-resource notes CRUD backend.

The service (FastAPI + SQLAlchemy over PostgreSQL) exposes list, create, get,
update and delete over a single `Note` entity plus two health endpoints.  We
shallow-embed the request handlers of `src/api/main.py`, the pydantic schemas
of `src/schemas.py`, and the stored `notes` table as explicit state passing
over a `Store` value.  Database id assignment (PostgreSQL serial primary key)
is modelled by a `nextId` counter that is strictly larger than every stored id.
-/

namespace NotesApp

/-- Python's `str.strip()`: drop leading and trailing whitespace characters.
Embeds the `.strip()` calls in `create_note` / `update_note`. -/
def pyStrip (s : String) : String :=
  ⟨((s.data.dropWhile Char.isWhitespace).reverse.dropWhile Char.isWhitespace).reverse⟩

/-- A stored row of the `notes` table (`src/models.py`, class `Note`):
integer primary key `id`, `title`, `content`. -/
structure Note where
  id : Nat
  title : String
  content : String
deriving Repr, DecidableEq

/-- Create payload (`src/schemas.py`, `NoteCreate`/`NoteBase`): both fields
required. -/
structure NoteCreate where
  title : String
  content : String
deriving Repr, DecidableEq

/-- Update payload (`src/schemas.py`, `NoteUpdate`): both fields optional. -/
structure NoteUpdate where
  title : Option String
  content : Option String
deriving Repr, DecidableEq

/-- Pydantic validation of the `title` field: `min_length=1, max_length=200`
on the raw (untrimmed) string (`src/schemas.py` line 5). -/
def validTitleField (t : String) : Bool :=
  decide (1 ≤ t.length) && decide (t.length ≤ 200)

/-- Pydantic validation of the `content` field: `min_length=1`
(`src/schemas.py` line 6). -/
def validContentField (c : String) : Bool :=
  decide (1 ≤ c.length)

/-- Validation of a create payload (`NoteCreate`): both field constraints. -/
def validCreate (p : NoteCreate) : Bool :=
  validTitleField p.title && validContentField p.content

/-- Validation of an update payload (`NoteUpdate`): each field optional, and
when present it must satisfy the same per-field constraint. -/
def validUpdate (p : NoteUpdate) : Bool :=
  p.title.all validTitleField && p.content.all validContentField

/-- The stored collection of notes plus the id sequence of the serial
primary key. -/
structure Store where
  notes : List Note
  nextId : Nat
deriving Repr, DecidableEq

/-- The empty store right after `ensure_schema` (PostgreSQL serial starts
at 1). -/
def Store.empty : Store := ⟨[], 1⟩

/-- `db.get(Note, note_id)`: primary-key lookup in the stored collection. -/
def getNoteById (s : Store) (id : Nat) : Option Note :=
  s.notes.find? (fun n => n.id == id)

/-- An `HTTPException` raised by a handler: status code and detail message. -/
structure HTTPError where
  status : Nat
  detail : String
deriving Repr, DecidableEq

/-- The only handler-raised error: `HTTPException(status_code=404,
detail="Note not found")`. -/
def noteNotFound : HTTPError := ⟨404, "Note not found"⟩

/-- `create_note` (`src/api/main.py` lines 160-172): store a new row with
the serial-assigned id, the stripped title and the verbatim content; return
the stored row (after `db.refresh`) together with the new store. -/
def create_note (p : NoteCreate) (s : Store) : Note × Store :=
  let note : Note := ⟨s.nextId, pyStrip p.title, p.content⟩
  (note, ⟨s.notes ++ [note], s.nextId + 1⟩)

/-- `get_note` (`src/api/main.py` lines 183-188): lookup by id, 404 when
absent. -/
def get_note (id : Nat) (s : Store) : Except HTTPError Note :=
  match getNoteById s id with
  | none => .error noteNotFound
  | some n => .ok n

/-- The field updates of `update_note` (`src/api/main.py` lines 205-208):
a supplied title is stripped, a supplied content is taken verbatim, an
omitted field keeps the prior value. -/
def applyUpdate (p : NoteUpdate) (n : Note) : Note :=
  { n with
    title := match p.title with | some t => pyStrip t | none => n.title
    content := match p.content with | some c => c | none => n.content }

/-- `update_note` (`src/api/main.py` lines 199-213): 404 when the id is
absent (no write), otherwise mutate the row in place and return it. -/
def update_note (id : Nat) (p : NoteUpdate) (s : Store) :
    Except HTTPError Note × Store :=
  match getNoteById s id with
  | none => (.error noteNotFound, s)
  | some note =>
    let updated := applyUpdate p note
    (.ok updated,
     ⟨s.notes.map (fun n => if n.id == id then updated else n), s.nextId⟩)

/-- `delete_note` (`src/api/main.py` lines 224-232): 404 when the id is
absent (no write), otherwise hard-delete the row and return 204 (no body). -/
def delete_note (id : Nat) (s : Store) : Except HTTPError Unit × Store :=
  match getNoteById s id with
  | none => (.error noteNotFound, s)
  | some _ => (.ok (), ⟨s.notes.filter (fun n => !(n.id == id)), s.nextId⟩)

/-- Ordering relation of `ORDER BY id DESC`: `a` comes no later than `b`. -/
def idDescLe (a b : Note) : Prop := b.id ≤ a.id

instance : DecidableRel idDescLe := fun a b => Nat.decLe b.id a.id

instance : IsTotal Note idDescLe := ⟨fun a b => (Nat.le_total b.id a.id)⟩

instance : IsTrans Note idDescLe :=
  ⟨fun _ _ _ h1 h2 => Nat.le_trans h2 h1⟩

/-- `list_notes` (`src/api/main.py` lines 145-148): all stored notes ordered
by `id` descending. -/
def list_notes (s : Store) : List Note :=
  s.notes.insertionSort idDescLe

/-- The readiness payload of `/health/db`. -/
inductive HealthPayload where
  | up (query : String) (result : Int)
  | down (error : String)
deriving Repr, DecidableEq

/-- `health_check_db` (`src/api/main.py` lines 126-134), parameterised by the
outcome of the `SELECT 1` round trip: status code together with the payload.
The handler catches every exception, so it is a total function of that
outcome and always answers 200. -/
def health_check_db (dbResult : Except String Int) : Nat × HealthPayload :=
  match dbResult with
  | .ok v => (200, .up "SELECT 1" v)
  | .error e => (200, .down e)

/-- The invariant claimed by the spec for a stored note: non-empty title of
at most 200 characters and non-empty content. -/
def Note.specWf (n : Note) : Prop :=
  n.title ≠ "" ∧ n.title.length ≤ 200 ∧ n.content ≠ ""

instance (n : Note) : Decidable n.specWf := by
  unfold Note.specWf
  infer_instance

/-- The spec invariant over the whole store. -/
def Store.specInv (s : Store) : Prop := ∀ n ∈ s.notes, n.specWf

instance (s : Store) : Decidable s.specInv := by
  unfold Store.specInv
  exact List.decidableBAll _ _

/-- The invariant the code actually maintains for a stored note: title of at
most 200 characters (possibly empty after stripping) and non-empty content. -/
def Note.wf (n : Note) : Prop :=
  n.title.length ≤ 200 ∧ n.content ≠ ""

/-- The maintained invariant over the whole store. -/
def Store.wf (s : Store) : Prop := ∀ n ∈ s.notes, n.wf

/-- Serial id assignment: every stored id is below the sequence counter. -/
def Store.idsFresh (s : Store) : Prop := ∀ n ∈ s.notes, n.id < s.nextId

/-- Stored ids are pairwise distinct (primary key uniqueness). -/
def Store.idsNodup (s : Store) : Prop := (s.notes.map Note.id).Nodup

instance (s : Store) : Decidable s.wf := by
  unfold Store.wf Note.wf
  exact List.decidableBAll _ _

instance (s : Store) : Decidable s.idsFresh := by
  unfold Store.idsFresh
  exact List.decidableBAll _ _

instance (s : Store) : Decidable s.idsNodup := by
  unfold Store.idsNodup
  infer_instance

/-- Stripping never lengthens a string. -/
theorem pyStrip_length_le (s : String) : (pyStrip s).length ≤ s.length := by
  show (((s.data.dropWhile Char.isWhitespace).reverse.dropWhile
      Char.isWhitespace).reverse).length ≤ s.data.length
  rw [List.length_reverse]
  calc ((s.data.dropWhile Char.isWhitespace).reverse.dropWhile Char.isWhitespace).length
      ≤ (s.data.dropWhile Char.isWhitespace).reverse.length :=
        (List.dropWhile_sublist _).length_le
    _ = (s.data.dropWhile Char.isWhitespace).length := List.length_reverse _
    _ ≤ s.data.length := (List.dropWhile_sublist _).length_le

/-- A string of positive length is not the empty string. -/
theorem ne_empty_of_length_pos {s : String} (h : 1 ≤ s.length) : s ≠ "" := by
  intro he
  subst he
  exact absurd h (by decide)

/-- A non-empty string has positive length. -/
theorem one_le_length_of_ne_empty {c : String} (h : c ≠ "") : 1 ≤ c.length := by
  cases c with
  | mk data =>
    cases data with
    | nil => exact absurd rfl h
    | cons a l => simp [String.length]

/-- Unfolding of create-payload validation into its field constraints. -/
theorem validCreate_iff {p : NoteCreate} :
    validCreate p = true ↔
      (1 ≤ p.title.length ∧ p.title.length ≤ 200) ∧ 1 ≤ p.content.length := by
  simp [validCreate, validTitleField, validContentField]

/-- A supplied title in a valid update payload is at most 200 characters. -/
theorem validUpdate_title_le {q : NoteUpdate} {t : String}
    (hq : validUpdate q = true) (ht : q.title = some t) : t.length ≤ 200 := by
  unfold validUpdate at hq
  rw [ht] at hq
  simp [validTitleField, Option.all] at hq
  exact hq.1.2

/-- A supplied content in a valid update payload is non-empty. -/
theorem validUpdate_content_ne {q : NoteUpdate} {c : String}
    (hq : validUpdate q = true) (hc : q.content = some c) : c ≠ "" := by
  unfold validUpdate at hq
  rw [hc] at hq
  simp [validContentField, Option.all] at hq
  exact ne_empty_of_length_pos hq.2

/-- `find?` skips a prefix on which the predicate is everywhere false. -/
theorem find?_append_right {α : Type} {l₁ l₂ : List α} {p : α → Bool}
    (h : ∀ x ∈ l₁, p x = false) : (l₁ ++ l₂).find? p = l₂.find? p := by
  rw [List.find?_append, List.find?_eq_none.mpr (fun x hx => by simp [h x hx]),
    Option.none_or]

/-- A map by a function that fixes every element of the list is the
identity. -/
theorem map_eq_self_of_fix {α : Type} {l : List α} {f : α → α}
    (h : ∀ a ∈ l, f a = a) : l.map f = l := by
  induction l with
  | nil => rfl
  | cons a t ih =>
    simp only [List.map_cons, h a (List.mem_cons_self a t)]
    rw [ih (fun x hx => h x (List.mem_cons_of_mem a hx))]

/-- A valid update applied to a well-formed note yields a well-formed
note. -/
theorem applyUpdate_wf {q : NoteUpdate} {n : Note}
    (hq : validUpdate q = true) (hn : n.wf) : (applyUpdate q n).wf := by
  obtain ⟨hT, hC⟩ := hn
  constructor
  · show (match q.title with | some t => pyStrip t | none => n.title).length ≤ 200
    cases ht : q.title with
    | none => exact hT
    | some t => exact le_trans (pyStrip_length_le t) (validUpdate_title_le hq ht)
  · show (match q.content with | some c => c | none => n.content) ≠ ""
    cases hc : q.content with
    | none => exact hC
    | some c => exact validUpdate_content_ne hq hc

/-- C5: for every id with no matching note in the store, the get, update and
delete handlers each answer exactly the 404 error with detail
"Note not found" (and hence no other error class). -/
theorem get_update_delete_notFound (i : Nat) (p : NoteUpdate) (s : Store)
    (h : getNoteById s i = none) :
    get_note i s = .error noteNotFound ∧
    (update_note i p s).1 = .error noteNotFound ∧
    (delete_note i s).1 = .error noteNotFound ∧
    noteNotFound = ⟨404, "Note not found"⟩ := by
  refine ⟨?_, ?_, ?_, rfl⟩ <;> simp [get_note, update_note, delete_note, h]

theorem get_update_delete_notFound_witness :
    getNoteById Store.empty 99 = none ∧
    (get_note 99 Store.empty = .error noteNotFound ∧
     (update_note 99 ⟨none, none⟩ Store.empty).1 = .error noteNotFound ∧
     (delete_note 99 Store.empty).1 = .error noteNotFound ∧
     noteNotFound = ⟨404, "Note not found"⟩) :=
  ⟨by decide, get_update_delete_notFound 99 ⟨none, none⟩ Store.empty (by decide)⟩

/-- C9: the readiness handler is a total function of the store round-trip
outcome: it always answers status code 200, reporting `up` with the query
result on success and `down` with the observed error text on failure. -/
theorem health_check_db_total :
    (∀ v : Int, health_check_db (.ok v) = (200, .up "SELECT 1" v)) ∧
    (∀ e : String, health_check_db (.error e) = (200, .down e)) :=
  ⟨fun _ => rfl, fun _ => rfl⟩

/-- C10: when the id is absent, the update and delete handlers leave the
store completely unchanged (the 404 path performs no write). -/
theorem notFound_no_write (i : Nat) (p : NoteUpdate) (s : Store)
    (h : getNoteById s i = none) :
    (update_note i p s).2 = s ∧ (delete_note i s).2 = s := by
  constructor <;> simp [update_note, delete_note, h]

theorem notFound_no_write_witness :
    getNoteById ⟨[⟨1, "a", "b"⟩], 2⟩ 7 = none ∧
    ((update_note 7 ⟨some "t", none⟩ ⟨[⟨1, "a", "b"⟩], 2⟩).2 = ⟨[⟨1, "a", "b"⟩], 2⟩ ∧
     (delete_note 7 ⟨[⟨1, "a", "b"⟩], 2⟩).2 = ⟨[⟨1, "a", "b"⟩], 2⟩) :=
  ⟨by decide, notFound_no_write 7 ⟨some "t", none⟩ ⟨[⟨1, "a", "b"⟩], 2⟩ (by decide)⟩

/-- C8: content validation rejects the empty string, accepts every non-empty
string (in particular whitespace-only ones), and an accepted content value
is stored verbatim by create and update (no trimming, no length cap). -/
theorem content_validation_verbatim :
    validContentField "" = false ∧
    validContentField " " = true ∧
    (∀ c : String, c ≠ "" → validContentField c = true) ∧
    (∀ (p : NoteCreate) (s : Store),
      (create_note p s).1.content = p.content ∧
      (create_note p s).2.notes = s.notes ++ [(create_note p s).1]) ∧
    (∀ (q : NoteUpdate) (n : Note) (c : String),
      q.content = some c → (applyUpdate q n).content = c) := by
  refine ⟨by decide, by decide, ?_, fun p s => ⟨rfl, rfl⟩, ?_⟩
  · intro c hc
    simp [validContentField]
    exact one_le_length_of_ne_empty hc
  · intro q n c hc
    simp [applyUpdate, hc]

theorem content_validation_verbatim_witness :
    (" \t " : String) ≠ "" ∧ validContentField " \t " = true :=
  ⟨by decide, content_validation_verbatim.2.2.1 " \t " (by decide)⟩

/-- C2: for every create payload accepted by validation, create returns the
note carrying the storage-assigned id, and getting that id afterwards
returns exactly the note create returned (identical title and content). -/
theorem create_then_get_roundtrip (p : NoteCreate) (s : Store)
    (_hv : validCreate p = true) (hf : s.idsFresh) :
    (create_note p s).1.id = s.nextId ∧
    get_note (create_note p s).1.id (create_note p s).2 =
      .ok (create_note p s).1 := by
  refine ⟨rfl, ?_⟩
  have h1 : ∀ x ∈ s.notes, (x.id == s.nextId) = false := by
    intro x hx
    simp only [beq_eq_false_iff_ne, ne_eq]
    exact Nat.ne_of_lt (hf x hx)
  simp [get_note, getNoteById, create_note, find?_append_right h1, List.find?]

theorem create_then_get_roundtrip_witness :
    validCreate ⟨"Groceries", "Milk, eggs"⟩ = true ∧
    Store.idsFresh Store.empty ∧
    ((create_note ⟨"Groceries", "Milk, eggs"⟩ Store.empty).1.id = 1 ∧
     get_note (create_note ⟨"Groceries", "Milk, eggs"⟩ Store.empty).1.id
       (create_note ⟨"Groceries", "Milk, eggs"⟩ Store.empty).2 =
       .ok (create_note ⟨"Groceries", "Milk, eggs"⟩ Store.empty).1) :=
  ⟨by decide, by decide,
   create_then_get_roundtrip ⟨"Groceries", "Milk, eggs"⟩ Store.empty
     (by decide) (by decide)⟩

/-- C6: deleting an existing note succeeds with an empty 204 result, a
subsequent get of the same id is the 404 not-found error, and a second
delete of the same id is also the 404 not-found error. -/
theorem delete_then_get_and_delete_notFound (i : Nat) (s : Store) (n : Note)
    (h : getNoteById s i = some n) :
    (delete_note i s).1 = .ok () ∧
    get_note i (delete_note i s).2 = .error noteNotFound ∧
    (delete_note i (delete_note i s).2).1 = .error noteNotFound := by
  have hdel : delete_note i s =
      (.ok (), ⟨s.notes.filter (fun n => !(n.id == i)), s.nextId⟩) := by
    simp [delete_note, h]
  have hafter :
      getNoteById (⟨s.notes.filter (fun n => !(n.id == i)), s.nextId⟩ : Store) i =
        none := by
    unfold getNoteById
    rw [List.find?_eq_none]
    intro x hx
    have hmem := (List.mem_filter.mp hx).2
    simpa using hmem
  rw [hdel]
  refine ⟨rfl, ?_, ?_⟩
  · simp [get_note, hafter]
  · simp [delete_note, hafter]

theorem delete_then_get_and_delete_notFound_witness :
    getNoteById ⟨[⟨1, "a", "b"⟩], 2⟩ 1 = some ⟨1, "a", "b"⟩ ∧
    ((delete_note 1 ⟨[⟨1, "a", "b"⟩], 2⟩).1 = .ok () ∧
     get_note 1 (delete_note 1 ⟨[⟨1, "a", "b"⟩], 2⟩).2 = .error noteNotFound ∧
     (delete_note 1 (delete_note 1 ⟨[⟨1, "a", "b"⟩], 2⟩).2).1 =
       .error noteNotFound) :=
  ⟨by decide,
   delete_then_get_and_delete_notFound 1 ⟨[⟨1, "a", "b"⟩], 2⟩ ⟨1, "a", "b"⟩
     (by decide)⟩

/-- C3: for an existing note, an update supplying only a title leaves the
content unchanged, an update supplying only a content leaves the title
unchanged, and an update supplying neither succeeds, returns the unchanged
note and leaves the store byte-identical. -/
theorem update_frame_conditions (i : Nat) (s : Store) (note : Note)
    (h : getNoteById s i = some note) (hnd : s.idsNodup) :
    (∀ t : String,
      (update_note i ⟨some t, none⟩ s).1 = .ok (applyUpdate ⟨some t, none⟩ note) ∧
      (applyUpdate ⟨some t, none⟩ note).content = note.content) ∧
    (∀ c : String,
      (update_note i ⟨none, some c⟩ s).1 = .ok (applyUpdate ⟨none, some c⟩ note) ∧
      (applyUpdate ⟨none, some c⟩ note).title = note.title) ∧
    update_note i ⟨none, none⟩ s = (.ok note, s) := by
  have hmem : note ∈ s.notes := List.mem_of_find?_eq_some h
  have hid : note.id = i := by simpa using List.find?_some h
  refine ⟨fun t => ⟨by simp [update_note, h], rfl⟩,
          fun c => ⟨by simp [update_note, h], rfl⟩, ?_⟩
  have hnoop : applyUpdate ⟨none, none⟩ note = note := rfl
  have hmap : s.notes.map
      (fun n => if n.id == i then note else n) = s.notes := by
    apply map_eq_self_of_fix
    intro a ha
    by_cases hai : a.id = i
    · have : a = note :=
        List.inj_on_of_nodup_map hnd ha hmem (by rw [hai, hid])
      simp [hai, this]
    · simp [hai]
  simp only [update_note, h, hnoop, hmap]

theorem update_frame_conditions_witness :
    getNoteById ⟨[⟨1, "a", "b"⟩], 2⟩ 1 = some ⟨1, "a", "b"⟩ ∧
    Store.idsNodup ⟨[⟨1, "a", "b"⟩], 2⟩ ∧
    update_note 1 ⟨none, none⟩ ⟨[⟨1, "a", "b"⟩], 2⟩ =
      (.ok ⟨1, "a", "b"⟩, ⟨[⟨1, "a", "b"⟩], 2⟩) :=
  ⟨by decide, by decide,
   (update_frame_conditions 1 ⟨[⟨1, "a", "b"⟩], 2⟩ ⟨1, "a", "b"⟩
     (by decide) (by decide)).2.2⟩

/-- C1 counterexample: the whitespace-only title " " passes create
validation (raw length 1), yet creating from it in the empty store — which
satisfies the spec invariant — yields a store holding a note whose stripped
title is empty, violating the spec invariant. -/
theorem specInv_broken_by_whitespace_title :
    validCreate ⟨" ", "x"⟩ = true ∧
    Store.specInv Store.empty ∧
    ¬ Store.specInv (create_note ⟨" ", "x"⟩ Store.empty).2 := by decide

/-- C1 amended: validation-accepted create and update payloads and deletes
preserve the invariant that every stored note has a title of at most 200
characters and a non-empty content (the stored title may be empty, because
validation measures the raw title and the handler strips it afterwards). -/
theorem wf_preserved_by_operations (p : NoteCreate) (q : NoteUpdate)
    (i : Nat) (s : Store) (hs : s.wf) :
    (validCreate p = true → ((create_note p s).2).wf) ∧
    (validUpdate q = true → ((update_note i q s).2).wf) ∧
    ((delete_note i s).2).wf := by
  refine ⟨?_, ?_, ?_⟩
  · intro hv
    obtain ⟨⟨_, ht2⟩, hc⟩ := validCreate_iff.mp hv
    intro n hn
    simp only [create_note, List.mem_append, List.mem_singleton] at hn
    rcases hn with hn | hn
    · exact hs n hn
    · subst hn
      exact ⟨le_trans (pyStrip_length_le _) ht2, ne_empty_of_length_pos hc⟩
  · intro hv
    cases hfind : getNoteById s i with
    | none =>
      simp only [update_note, hfind]
      exact hs
    | some note =>
      have hnotewf : note.wf := hs note (List.mem_of_find?_eq_some hfind)
      simp only [update_note, hfind]
      intro n hn
      obtain ⟨m, hm, hfm⟩ := List.mem_map.mp hn
      by_cases hmi : (m.id == i) = true
      · rw [if_pos hmi] at hfm
        subst hfm
        exact applyUpdate_wf hv hnotewf
      · rw [if_neg hmi] at hfm
        subst hfm
        exact hs m hm
  · cases hfind : getNoteById s i with
    | none =>
      simp only [delete_note, hfind]
      exact hs
    | some note =>
      simp only [delete_note, hfind]
      intro n hn
      exact hs n (List.mem_filter.mp hn).1

theorem wf_preserved_witness :
    Store.wf ⟨[⟨1, "a", "b"⟩], 2⟩ ∧
    validCreate ⟨" pad ", "c"⟩ = true ∧
    Store.wf (create_note ⟨" pad ", "c"⟩ ⟨[⟨1, "a", "b"⟩], 2⟩).2 :=
  ⟨by decide, by decide,
   (wf_preserved_by_operations ⟨" pad ", "c"⟩ ⟨none, none⟩ 1
     ⟨[⟨1, "a", "b"⟩], 2⟩ (by decide)).1 (by decide)⟩

/-- C4 counterexample: the whitespace-only title " " — empty after
trimming — is accepted by title validation, and the created note is stored
with an empty title, contradicting the claim that a title empty after
trimming is rejected. -/
theorem whitespace_title_not_rejected :
    validTitleField " " = true ∧
    pyStrip " " = "" ∧
    (create_note ⟨" ", "x"⟩ Store.empty).1.title = "" := by decide

/-- C4 amended: title validation accepts every title of exactly 200
characters, rejects every title of 201 characters, rejects the empty title,
but accepts whitespace-only titles (the 1–200 length bounds are checked on
the raw, untrimmed title; stripping happens after validation). -/
theorem title_validation_boundaries (t200 t201 : String)
    (h200 : t200.length = 200) (h201 : t201.length = 201) :
    validTitleField t200 = true ∧
    validTitleField t201 = false ∧
    validTitleField "" = false ∧
    validTitleField " " = true := by
  refine ⟨?_, ?_, by decide, by decide⟩
  · simp [validTitleField, h200]
  · simp [validTitleField, h201]

set_option maxRecDepth 4000 in
theorem title_validation_boundaries_witness :
    String.length ⟨List.replicate 200 'a'⟩ = 200 ∧
    String.length ⟨List.replicate 201 'b'⟩ = 201 ∧
    validTitleField ⟨List.replicate 200 'a'⟩ = true :=
  ⟨by simp [String.length], by simp [String.length],
   (title_validation_boundaries ⟨List.replicate 200 'a'⟩ ⟨List.replicate 201 'b'⟩
     (by simp [String.length]) (by simp [String.length])).1⟩

/-- C7: when stored ids are pairwise distinct (primary-key uniqueness), the
list handler returns exactly the stored notes (a permutation of the store)
in strictly descending id order. -/
theorem list_notes_all_sorted_desc (s : Store) (h : s.idsNodup) :
    List.Perm (list_notes s) s.notes ∧
    (list_notes s).Pairwise (fun a b => b.id < a.id) := by
  have hperm : List.Perm (list_notes s) s.notes := List.perm_insertionSort idDescLe s.notes
  refine ⟨hperm, ?_⟩
  have hsorted : (list_notes s).Pairwise idDescLe :=
    List.sorted_insertionSort idDescLe s.notes
  have hmapnd : ((list_notes s).map Note.id).Nodup :=
    ((hperm.map Note.id).nodup_iff).mpr h
  have hne : (list_notes s).Pairwise (fun a b => a.id ≠ b.id) :=
    List.pairwise_map.mp hmapnd
  exact (hsorted.and hne).imp
    (fun hab => Nat.lt_of_le_of_ne hab.1 hab.2.symm)

theorem list_notes_all_sorted_desc_witness :
    Store.idsNodup ⟨[⟨1, "a", "b"⟩, ⟨3, "c", "d"⟩, ⟨2, "e", "f"⟩], 4⟩ ∧
    (List.Perm (list_notes ⟨[⟨1, "a", "b"⟩, ⟨3, "c", "d"⟩, ⟨2, "e", "f"⟩], 4⟩)
       [⟨1, "a", "b"⟩, ⟨3, "c", "d"⟩, ⟨2, "e", "f"⟩] ∧
     (list_notes ⟨[⟨1, "a", "b"⟩, ⟨3, "c", "d"⟩, ⟨2, "e", "f"⟩], 4⟩).Pairwise
       (fun a b => b.id < a.id)) :=
  ⟨by decide,
   list_notes_all_sorted_desc ⟨[⟨1, "a", "b"⟩, ⟨3, "c", "d"⟩, ⟨2, "e", "f"⟩], 4⟩
     (by decide)⟩

end NotesApp
